import Mathlib

/-!
Verification of the mzr zone/merge system against its specification.

The Rust sources are shallowly embedded: paths are lists of path segments,
filesystem metadata is an explicit record, filesystem lookups and directory
walks are explicit data supplied to the embedded functions, and effectful
code is modelled by state passing together with explicit effect traces.
-/

namespace Mzr

/-- Paths are sequences of path segments; `Path.append` models `PathBuf::join`. -/
abbrev Path := List String

/-- Mirrors `std::fs::FileType`: the three classification predicates
`is_dir`, `is_file`, `is_symlink` used by `metadata_matches` in `merge.rs`. -/
structure FileType where
  is_dir : Bool
  is_file : Bool
  is_symlink : Bool
deriving DecidableEq, Repr

/-- Mirrors the parts of `std::fs::Metadata` consulted by `merge.rs`:
`len()`, `modified()` (which can fail, hence `Option`), `permissions()`
(abstracted to a bit pattern compared for equality), and `file_type()`. -/
structure Metadata where
  len : Nat
  modified : Option Nat
  permissions : Nat
  file_type : FileType
deriving DecidableEq, Repr

/-- Embeds `metadata_matches` from `src/merge.rs` with the source's exact
control flow: length first, then modification times (any unavailable
timestamp means no match), then permissions, then the three file-type
classification bits. -/
def metadata_matches (x y : Metadata) : Bool :=
  if x.len ≠ y.len then false
  else
    match x.modified, y.modified with
    | some x_time, some y_time =>
      if x_time ≠ y_time then false
      else if x.permissions ≠ y.permissions then false
      else
        (x.file_type.is_dir == y.file_type.is_dir)
          && (x.file_type.is_file == y.file_type.is_file)
          && (x.file_type.is_symlink == y.file_type.is_symlink)
    | _, _ => false

/-- Result of `get_metadata` in `src/merge.rs`: `fs::symlink_metadata`
either fails with `NotFound` (`absent`), fails with another IO error
(`ioErr`), or yields metadata (`present`). -/
inductive FsLookup where
  | ioErr : String → FsLookup
  | absent : FsLookup
  | present : Metadata → FsLookup
deriving DecidableEq, Repr

/-- A filesystem is a total lookup from paths to `get_metadata` outcomes. -/
abbrev Fs := Path → FsLookup

/-- Whether the lookup's metadata `modified` field is available, trivially
true when the path is absent or errors. -/
def lookupModSome : FsLookup → Bool
  | .present md => md.modified.isSome
  | _ => true

def exceptIsOk {ε α : Type} : Except ε α → Bool
  | .ok _ => true
  | .error _ => false

instance {ε α : Type} [DecidableEq ε] [DecidableEq α] : DecidableEq (Except ε α) := fun a b =>
  match a, b with
  | .error x, .error y => if h : x = y then .isTrue (by rw [h]) else .isFalse (by simp [h])
  | .error _, .ok _ => .isFalse (by simp)
  | .ok _, .error _ => .isFalse (by simp)
  | .ok x, .ok y => if h : x = y then .isTrue (by rw [h]) else .isFalse (by simp [h])

/-- One item yielded by the `WalkDir` iteration in
`plan_merging_zone_changes`: either a walk error (with the optional path it
reports) or an entry with its (fallible) `entry.metadata()` result. -/
inductive WalkResult where
  | failure : Option Path → String → WalkResult
  | entry : Path → Except String Metadata → WalkResult
deriving DecidableEq, Repr

/-- Mirrors `merge.rs`'s `Update`. -/
structure Update where
  rel_path : Path
  source_metadata : Metadata
  target_metadata : Option Metadata
deriving DecidableEq, Repr

/-- Mirrors `merge.rs`'s `ConflictReason`. -/
inductive ConflictReason where
  | NotInSnapshot
  | ModifiedInTarget
deriving DecidableEq, Repr

/-- Mirrors `merge.rs`'s `Conflict`. -/
structure Conflict where
  rel_path : Path
  reason : ConflictReason
  source_metadata : Metadata
  target_metadata : Metadata
deriving DecidableEq, Repr

/-- Mirrors `merge.rs`'s `Skip`: the walked path (when known) and the
underlying error. -/
structure Skip where
  source : Option Path
  reason : String
deriving DecidableEq, Repr

/-- Mirrors `merge.rs`'s `Plan`. -/
structure Plan where
  updates : List Update
  conflicts : List Conflict
  skips : List Skip
deriving DecidableEq, Repr

/-- Models `source.strip_prefix(&source_dir)`: removes `source_dir` from the front
of `source`, failing when `source_dir` is not a leading portion of it. -/
def stripDirFromFront : Path → Path → Option Path
  | [], p => some p
  | _ :: _, [] => none
  | d :: ds, x :: xs => if d = x then stripDirFromFront ds xs else none

/-- What the loop body of `plan_merging_zone_changes` does with a single
walk result: push an update, a conflict, a skip, or (for directories)
nothing. -/
inductive PlanItem where
  | upd : Update → PlanItem
  | confl : Conflict → PlanItem
  | skip : Skip → PlanItem
  | ignored : PlanItem
deriving DecidableEq, Repr

/-- Embeds the loop body of `plan_merging_zone_changes` in `src/merge.rs`.
`source_dir` is the zone's changes directory, `snap_dir` the snapshot
directory, `target_dir` the merge target; `fs` answers the two
`get_metadata` calls. Every `?`-propagated error inside the `try` block
becomes a `Skip` recording the walked path and the error. -/
def planStep (source_dir snap_dir target_dir : Path) (fs : Fs) :
    WalkResult → PlanItem
  | .failure p e => .skip ⟨p, e⟩
  | .entry source mres =>
    match mres with
    | .error e => .skip ⟨some source, e⟩
    | .ok source_metadata =>
      if source_metadata.file_type.is_dir then .ignored
      else
        match stripDirFromFront source_dir source with
        | none => .skip ⟨some source, "StripPrefixError"⟩
        | some rel_path =>
          match fs (target_dir ++ rel_path) with
          | .ioErr e => .skip ⟨some source, e⟩
          | .absent => .upd ⟨rel_path, source_metadata, none⟩
          | .present target_metadata =>
            match fs (snap_dir ++ rel_path) with
            | .ioErr e => .skip ⟨some source, e⟩
            | .absent =>
              .confl ⟨rel_path, .NotInSnapshot, source_metadata, target_metadata⟩
            | .present snapshot_metadata =>
              if metadata_matches target_metadata snapshot_metadata then
                .upd ⟨rel_path, source_metadata, some target_metadata⟩
              else
                .confl ⟨rel_path, .ModifiedInTarget, source_metadata, target_metadata⟩

/-- Embeds `plan_merging_zone_changes` from `src/merge.rs`: iterate over the
walk results in order, accumulating updates, conflicts and skips; the
function is total, so a `Plan` is returned for every walk. -/
def plan_merging_zone_changes (source_dir snap_dir target_dir : Path) (fs : Fs) :
    List WalkResult → Plan
  | [] => ⟨[], [], []⟩
  | w :: ws =>
    let rest := plan_merging_zone_changes source_dir snap_dir target_dir fs ws
    match planStep source_dir snap_dir target_dir fs w with
    | .upd u => { rest with updates := u :: rest.updates }
    | .confl c => { rest with conflicts := c :: rest.conflicts }
    | .skip s => { rest with skips := s :: rest.skips }
    | .ignored => rest

/-- Pointwise filesystem override at a single path, used to model the effect
of a file copy on subsequent `get_metadata` lookups. -/
def fsSet (fs : Fs) (q : Path) (v : FsLookup) : Fs :=
  fun x => if x = q then v else fs x

/-- Models `Update::apply` / `copy_from_changes_dir` / `copy_file` from
`src/merge.rs`: `cp --archive --reflink=auto --no-dereference` copies the
change-layer file at `rel_path` onto `target_dir/rel_path`, preserving all
file attributes, so the target's metadata becomes the source's metadata
(captured in the update's `source_metadata`). -/
def apply_update (target_dir : Path) (fs : Fs) (u : Update) : Fs :=
  fsSet fs (target_dir ++ u.rel_path) (.present u.source_metadata)

/-- Applies every update of a plan in order. -/
def apply_updates (target_dir : Path) (fs : Fs) : List Update → Fs
  | [] => fs
  | u :: us => apply_updates target_dir (apply_update target_dir fs u) us

/-- Observable effects of `interactive_merge`: terminal output and file
copies (the latter are what would change the target tree). -/
inductive Effect where
  | printLine : String → Effect
  | copyFile : Path → Path → Effect
deriving DecidableEq, Repr

/-- Mirrors `merge.rs`'s `Mode`. -/
inductive Mode where
  | AlwaysAsk
  | AutoApplyUpdates
  | AutoApplyConflicts
deriving DecidableEq, Repr

/-- Rendering of a skip's source path in `interactive_merge`'s output. -/
def renderSkipSource : Option Path → String
  | none => "* <missing>"
  | some q => "* " ++ String.intercalate "/" q

/-- Embeds `interactive_merge` from `src/merge.rs`: it computes the plan,
prints the skipped paths when there are any, and returns `Ok(())`. All of
the update/conflict application logic in the source is commented out, so no
copy effect is ever emitted and `mode` is never consulted. -/
def interactive_merge (source_dir snap_dir target_dir : Path) (fs : Fs)
    (walk : List WalkResult) (_mode : Mode) :
    Except String Unit × List Effect :=
  let plan := plan_merging_zone_changes source_dir snap_dir target_dir fs walk
  let effects :=
    if plan.skips.length > 0 then
      Effect.printLine "Skipping merging the following paths:"
        :: plan.skips.map (fun s => Effect.printLine (renderSkipSource s.source))
    else []
  (Except.ok (), effects)

/-- The merge mode that `run` in `src/lib.rs` passes to
`interactive_merge` for the `mzr run` command. -/
def run_merge_mode : Mode := Mode.AutoApplyUpdates

/-- Interprets an effect trace against a filesystem: prints change nothing,
a copy overwrites the target path with the source's lookup result. -/
def applyEffects (fs : Fs) : List Effect → Fs
  | [] => fs
  | .printLine _ :: es => applyEffects fs es
  | .copyFile s t :: es => applyEffects (fsSet fs t (fs s)) es

/-- Recognizes effects that would modify the filesystem. -/
def isCopyEffect : Effect → Bool
  | .copyFile _ _ => true
  | .printLine _ => false

/-- Walk results that the planner can only record as skips: walk failures
and entries whose metadata read failed. -/
def isSkipSource : WalkResult → Bool
  | .failure _ _ => true
  | .entry _ (.error _) => true
  | .entry _ (.ok _) => false

/-- The skip recorded for such a walk result, carrying the underlying
error reported by the walk. -/
def skipOf : WalkResult → Skip
  | .failure p e => ⟨p, e⟩
  | .entry q (.error e) => ⟨some q, e⟩
  | .entry q (.ok _) => ⟨some q, ""⟩

/-! ### Zone creation (`src/zone.rs`, `src/paths.rs`) -/

/-- Path built by `ZoneDir::new`: `MZR_DIR/zone/ZONE`. -/
def zoneDirOf (mzr_dir : Path) (zone_name : String) : Path :=
  mzr_dir ++ ["zone", zone_name]

/-- Path built by `SnapDir::new`: `MZR_DIR/snap/SNAP`. -/
def snapDirOf (mzr_dir : Path) (snap_name : String) : Path :=
  mzr_dir ++ ["snap", snap_name]

/-- Path built by `OvfsChangesDir::new`: `ZONE_DIR/changes`. -/
def ovfsChangesDirOf (zone_dir : Path) : Path := zone_dir ++ ["changes"]

/-- Path built by `OvfsWorkDir::new`: `ZONE_DIR/ovfs-work`. -/
def ovfsWorkDirOf (zone_dir : Path) : Path := zone_dir ++ ["ovfs-work"]

/-- Path built by `OvfsMountDir::new`: `ZONE_DIR/mount`. -/
def ovfsMountDirOf (zone_dir : Path) : Path := zone_dir ++ ["mount"]

/-- Path built by `ZoneInfoFile::new`: `ZONE_DIR/info.json`. -/
def zoneInfoFileOf (zone_dir : Path) : Path := zone_dir ++ ["info.json"]

/-- On-disk state relevant to zone creation: which directories exist and
which zone info records have been written. -/
structure DirState where
  dirs : List Path
  infos : List Path
deriving DecidableEq, Repr

/-- All leading portions of a path, its full length included. -/
def ancestors (p : Path) : List Path :=
  (List.range (p.length + 1)).map (fun n => p.take n)

/-- Models `std::fs::create_dir_all`: creates the directory and any missing
ancestors; succeeds even when the directory already exists. -/
def createDirAll (s : DirState) (p : Path) : DirState :=
  { s with dirs := ancestors p ++ s.dirs }

/-- Models `std::fs::create_dir`: fails when the directory already exists. -/
def createDir (s : DirState) (p : Path) : Except String DirState :=
  if p ∈ s.dirs then .error "exists"
  else .ok { s with dirs := p :: s.dirs }

/-- Models `json::write` of the zone info record; `writeOk` is the world's verdict
on whether the write succeeds (a failing write leaves no record). -/
def jsonWrite (s : DirState) (p : Path) (writeOk : Bool) : Except String DirState :=
  if writeOk then .ok { s with infos := p :: s.infos }
  else .error "failed to write zone info"

/-- The fields of `zone.rs`'s `Zone` that name on-disk locations. -/
structure Zone where
  zone_dir : Path
  snap_dir : Path
  ovfs_changes_dir : Path
  ovfs_work_dir : Path
  ovfs_mount_dir : Path
deriving DecidableEq, Repr

/-- Embeds `Zone::create_impl` from `src/zone.rs`, with the source's order
of operations: check the snapshot directory exists (bailing before touching
disk otherwise), create the zone parent directory, create the zone
directory (failing when the zone already exists), create the changes, work
and mount directories, and finally write the `info.json` record. The
returned list is the trace of on-disk states after each filesystem
operation. -/
def create_impl (mzr_dir : Path) (zone_name snap_name : String)
    (writeOk : Bool) (s : DirState) :
    (Except String Zone × DirState) × List DirState :=
  let snap_dir := snapDirOf mzr_dir snap_name
  if snap_dir ∈ s.dirs then
    let zone_dir := zoneDirOf mzr_dir zone_name
    let s1 := createDirAll s (mzr_dir ++ ["zone"])
    match createDir s1 zone_dir with
    | .error _ => ((.error (zone_name ++ " zone already exists"), s1), [s1])
    | .ok s2 =>
      let changes := ovfsChangesDirOf zone_dir
      let work := ovfsWorkDirOf zone_dir
      let mount := ovfsMountDirOf zone_dir
      let s3 := createDirAll s2 changes
      let s4 := createDirAll s3 work
      let s5 := createDirAll s4 mount
      match jsonWrite s5 (zoneInfoFileOf zone_dir) writeOk with
      | .error e => ((.error e, s5), [s1, s2, s3, s4, s5])
      | .ok s6 =>
        ((.ok ⟨zone_dir, snap_dir, changes, work, mount⟩, s6),
          [s1, s2, s3, s4, s5, s6])
  else
    ((.error ("Expected that the " ++ snap_name ++ " snapshot would exist"), s), [])

/-- A state in which some zone overlay directory exists although the zone's
info record does not — the situation the atomic-group invariant rules out. -/
def dirsWithoutInfo (zone_dir : Path) (s : DirState) : Bool :=
  s.dirs.contains (ovfsChangesDirOf zone_dir)
    && !(s.infos.contains (zoneInfoFileOf zone_dir))

/-! ### Daemon request handling (`src/daemon.rs`) -/

abbrev ZoneName := String
abbrev ZonePid := Nat

/-- The daemon's in-memory zone registry (`ProcessMap` in `daemon.rs`),
modelled as an association list with `HashMap` lookup/insert semantics. -/
abbrev ProcessMap := List (ZoneName × ZonePid)

/-- Mirrors `daemon.rs`'s `Response`. -/
inductive Response where
  | zoneProcess : ZonePid → Response
  | error : String → Response
deriving DecidableEq, Repr

/-- Models `HashMap::insert`: replaces any existing binding for the key. -/
def mapInsert : ProcessMap → ZoneName → ZonePid → ProcessMap
  | [], k, v => [(k, v)]
  | (k', v') :: rest, k, v =>
    if k' = k then (k, v) :: rest else (k', v') :: mapInsert rest k v

/-- The registry holds at most one entry per zone name. -/
def keysNodup (m : ProcessMap) : Prop := (m.map Prod.fst).Nodup

def nlChar : Char := Char.ofNat 10

/-- Models `READY_MSG = b"ready\n"` from `daemon.rs`. -/
def readyMsg : List Char := ['r', 'e', 'a', 'd', 'y', nlChar]

/-- Outcomes the outside world supplies to one `handle_client` call: the
parsed request, `Zone::load_if_exists`, the git symlink step,
`zone.mount()`, the clone inside `fork_zone_process`, and the bytes the
daemon reads (up to a newline) from the anchor's readiness socket. -/
structure HandleWorld where
  recv : Except String ZoneName
  load : Except String (Option Unit)
  gitSymlink : Except String Unit
  mount : Except String Unit
  forkChild : Except String ZonePid
  readyData : List Char

/-- Observable daemon-side effects of handling one request. -/
inductive DaemonEffect where
  | gitLink : DaemonEffect
  | mountOverlay : DaemonEffect
  | forkAnchor : ZonePid → DaemonEffect
deriving DecidableEq, Repr

/-- Embeds `fork_zone_process` from `src/daemon.rs`: a failed clone forks
nothing; a successful clone forks the anchor (effect emitted even when the
subsequent handshake fails), then the parent reads until a newline and
fails unless it got exactly `READY_MSG`. -/
def fork_zone_process (w : HandleWorld) :
    Except String ZonePid × List DaemonEffect :=
  match w.forkChild with
  | .error e => (.error e, [])
  | .ok pid =>
    if w.readyData = readyMsg then (.ok pid, [.forkAnchor pid])
    else (.error "Didn't receive expected message from child process",
          [.forkAnchor pid])

/-- Embeds `handle_client` from `src/daemon.rs`: a registry hit answers
with the recorded pid and performs no effect; a miss loads the zone
metadata (absence is the "Zone does not exist" error), links the git repo,
mounts the overlay, forks the anchor, and only on full success inserts the
registry entry. Any error becomes an `Error` response. -/
def handle_client (w : HandleWorld) (processes : ProcessMap) :
    Response × ProcessMap × List DaemonEffect :=
  match w.recv with
  | .error e => (.error ("Unexpected error: " ++ e), processes, [])
  | .ok zone_name =>
    match List.lookup zone_name processes with
    | some pid => (.zoneProcess pid, processes, [])
    | none =>
      match w.load with
      | .error e => (.error ("Unexpected error: " ++ e), processes, [])
      | .ok none => (.error "Zone does not exist", processes, [])
      | .ok (some _) =>
        match w.gitSymlink with
        | .error e => (.error ("Unexpected error: " ++ e), processes, [.gitLink])
        | .ok _ =>
          match w.mount with
          | .error e =>
            (.error ("Unexpected error: " ++ e), processes,
              [.gitLink, .mountOverlay])
          | .ok _ =>
            match (fork_zone_process w).1 with
            | .error e =>
              (.error ("Unexpected error: " ++ e), processes,
                [.gitLink, .mountOverlay] ++ (fork_zone_process w).2)
            | .ok pid =>
              (.zoneProcess pid, mapInsert processes zone_name pid,
                [.gitLink, .mountOverlay] ++ (fork_zone_process w).2)

/-- Recognizes `Error` responses. -/
def isErrResp : Response → Bool
  | .error _ => true
  | .zoneProcess _ => false

/-! ### Identity-mapping handshake (`src/namespaces.rs`) -/

/-- The events of one `with_unshared_user_and_mount` call: the clone, the
three control-file writes of `map_user_to_root` (in source order:
`uid_map`, then `setgroups` set to deny, then `gid_map`), the parent's
ready send, the child's blocking ready receive, and the child body. -/
inductive Ev where
  | cloneChild
  | writeUidMap
  | writeSetgroupsDeny
  | writeGidMap
  | sendReady
  | recvReady
  | childBody
deriving DecidableEq, Repr

/-- The writes performed by `map_user_to_root`, in source order. -/
def map_user_to_root_events : List Ev :=
  [.writeUidMap, .writeSetgroupsDeny, .writeGidMap]

/-- What the parent does after the clone returns: the three mapping writes,
then `send_ready`. -/
def parent_after_clone : List Ev := map_user_to_root_events ++ [.sendReady]

/-- What the child does: block in `recv_ready`, then run `child_fn`. -/
def child_events : List Ev := [.recvReady, .childBody]

/-- All order-preserving interleavings of two event sequences, by structural
recursion on a fuel bound (sufficient fuel is supplied below). -/
def interleavingsFuel : Nat → List Ev → List Ev → List (List Ev)
  | _, [], ys => [ys]
  | _, x :: xs, [] => [x :: xs]
  | 0, xs, ys => [xs ++ ys]
  | n + 1, x :: xs, y :: ys =>
    (interleavingsFuel n xs (y :: ys)).map (fun t => x :: t)
      ++ (interleavingsFuel n (x :: xs) ys).map (fun t => y :: t)

/-- All order-preserving interleavings of two event sequences. -/
def interleavings (xs ys : List Ev) : List (List Ev) :=
  interleavingsFuel (xs.length + ys.length) xs ys

/-- The possible executions of `with_unshared_user_and_mount`: the clone
happens first, then the parent's and the child's sequences run
concurrently. -/
def executions : List (List Ev) :=
  (interleavings parent_after_clone child_events).map (fun t => Ev.cloneChild :: t)

/-- The rendezvous constraint: the child's one-shot `recv_ready` cannot
complete before the parent's `send_ready`. -/
def admissible (t : List Ev) : Prop :=
  t.indexOf Ev.sendReady < t.indexOf Ev.recvReady

instance (t : List Ev) : Decidable (admissible t) :=
  Nat.decLt (t.indexOf Ev.sendReady) (t.indexOf Ev.recvReady)

/-! ### Socket protocol framing (`src/daemon.rs`) -/

def quoteChar : Char := Char.ofNat 34
def backslashChar : Char := Char.ofNat 92
def lbraceChar : Char := Char.ofNat 123
def rbraceChar : Char := Char.ofNat 125

/-- JSON string escaping as performed by the serializer: quotes,
backslashes and control characters (here: newline) are escaped. -/
def jsonEscape : List Char → List Char
  | [] => []
  | c :: cs =>
    if c = quoteChar then backslashChar :: quoteChar :: jsonEscape cs
    else if c = backslashChar then backslashChar :: backslashChar :: jsonEscape cs
    else if c = nlChar then backslashChar :: 'n' :: jsonEscape cs
    else c :: jsonEscape cs

/-- The characters of the word `ZoneProcess` as it appears in the JSON
encoding of requests and responses. -/
def zoneProcessTag : List Char :=
  ['Z', 'o', 'n', 'e', 'P', 'r', 'o', 'c', 'e', 's', 's']

/-- The characters of the word `Error`. -/
def errorTag : List Char := ['E', 'r', 'r', 'o', 'r']

/-- serde_json encoding of `Request::ZoneProcess(name)`. -/
def serializeRequest (zone_name : List Char) : List Char :=
  [lbraceChar, quoteChar] ++ zoneProcessTag ++ [quoteChar, ':', quoteChar]
    ++ jsonEscape zone_name ++ [quoteChar, rbraceChar]

/-- serde_json encoding of a `Response`; the pid digits are abstracted by
`Nat.repr`. -/
def serializeResponse : Response → List Char
  | .zoneProcess pid =>
    [lbraceChar, quoteChar] ++ zoneProcessTag ++ [quoteChar, ':']
      ++ (Nat.repr pid).toList ++ [rbraceChar]
  | .error msg =>
    [lbraceChar, quoteChar] ++ errorTag ++ [quoteChar, ':', quoteChar]
      ++ jsonEscape msg.toList ++ [quoteChar, rbraceChar]

/-- Embeds `send_request` from `src/daemon.rs`: `serde_json::to_writer`
followed by `stream.write_all(b"\n")`. -/
def send_request (stream : List Char) (zone_name : List Char) : List Char :=
  stream ++ serializeRequest zone_name ++ [nlChar]

/-- Embeds `send_response` from `src/daemon.rs`: `serde_json::to_writer`
only — the daemon writes no terminator after the response. -/
def send_response (stream : List Char) (resp : Response) : List Char :=
  stream ++ serializeResponse resp

/-- Models `BufRead::read_until(b'\n')` as used by `recv_request`: consumes bytes
up to and including the first newline (or the whole stream when there is
none); this is the frame the daemon then parses. -/
def readUntilNl : List Char → List Char
  | [] => []
  | c :: cs => if c = nlChar then [c] else c :: readUntilNl cs

/-! ### Helper lemmas -/

theorem FileType.eq_iff (a b : FileType) :
    a = b ↔ (a.is_dir = b.is_dir ∧ a.is_file = b.is_file ∧ a.is_symlink = b.is_symlink) := by
  cases a; cases b; simp [FileType.mk.injEq]

/-- The function `metadata_matches` agrees with the spec's four-way agreement condition
whenever both modification timestamps are available. -/
theorem metadata_matches_iff (x y : Metadata) (xt yt : Nat)
    (hx : x.modified = some xt) (hy : y.modified = some yt) :
    metadata_matches x y = true ↔
      (x.len = y.len ∧ x.modified = y.modified ∧
        x.permissions = y.permissions ∧ x.file_type = y.file_type) := by
  unfold metadata_matches
  rw [hx, hy]
  by_cases h1 : x.len = y.len <;> by_cases h2 : xt = yt <;>
    by_cases h3 : x.permissions = y.permissions <;>
      simp [h1, h2, h3, FileType.eq_iff, and_assoc]

theorem plan_merging_append (source_dir snap_dir target_dir : Path) (fs : Fs)
    (xs ys : List WalkResult) :
    plan_merging_zone_changes source_dir snap_dir target_dir fs (xs ++ ys) =
      ⟨(plan_merging_zone_changes source_dir snap_dir target_dir fs xs).updates
          ++ (plan_merging_zone_changes source_dir snap_dir target_dir fs ys).updates,
        (plan_merging_zone_changes source_dir snap_dir target_dir fs xs).conflicts
          ++ (plan_merging_zone_changes source_dir snap_dir target_dir fs ys).conflicts,
        (plan_merging_zone_changes source_dir snap_dir target_dir fs xs).skips
          ++ (plan_merging_zone_changes source_dir snap_dir target_dir fs ys).skips⟩ := by
  induction xs with
  | nil => simp [plan_merging_zone_changes]
  | cons w ws ih =>
    simp only [List.cons_append, plan_merging_zone_changes]
    cases planStep source_dir snap_dir target_dir fs w <;> simp [ih]

theorem planStep_of_skip_source (source_dir snap_dir target_dir : Path) (fs : Fs)
    (w : WalkResult) (hw : isSkipSource w = true) :
    planStep source_dir snap_dir target_dir fs w = .skip (skipOf w) := by
  match w with
  | .failure p e => rfl
  | .entry q (.error e) => rfl
  | .entry q (.ok _) => simp [isSkipSource] at hw

theorem self_mem_ancestors (p : Path) : p ∈ ancestors p := by
  simp only [ancestors, List.mem_map]
  exact ⟨p.length, by simp, List.take_length p⟩

theorem mem_keys_mapInsert (m : ProcessMap) (k : ZoneName) (v : ZonePid)
    (x : ZoneName) (hx : x ∈ (mapInsert m k v).map Prod.fst) :
    x = k ∨ x ∈ m.map Prod.fst := by
  induction m with
  | nil => simpa [mapInsert] using hx
  | cons p rest ih =>
    obtain ⟨k', v'⟩ := p
    by_cases h : k' = k
    · simp only [mapInsert, if_pos h, List.map_cons, List.mem_cons] at hx
      rcases hx with h1 | h2
      · exact Or.inl h1
      · exact Or.inr (by simp [h2])
    · simp only [mapInsert, if_neg h, List.map_cons, List.mem_cons] at hx
      rcases hx with h1 | h2
      · exact Or.inr (by simp [h1])
      · rcases ih h2 with h3 | h4
        · exact Or.inl h3
        · exact Or.inr (by simp [h4])

theorem keysNodup_mapInsert (m : ProcessMap) (k : ZoneName) (v : ZonePid)
    (h : keysNodup m) : keysNodup (mapInsert m k v) := by
  induction m with
  | nil => simp [mapInsert, keysNodup]
  | cons p rest ih =>
    obtain ⟨k', v'⟩ := p
    rw [keysNodup, List.map_cons, List.nodup_cons] at h
    by_cases hk : k' = k
    · subst hk
      simpa [mapInsert, keysNodup] using h
    · simp only [mapInsert, if_neg hk]
      rw [keysNodup, List.map_cons, List.nodup_cons]
      refine ⟨fun hmem => ?_, ih h.2⟩
      rcases mem_keys_mapInsert rest k v k' hmem with h1 | h2
      · exact hk h1
      · exact h.1 h2

theorem lookup_mapInsert (m : ProcessMap) (k : ZoneName) (v : ZonePid) :
    List.lookup k (mapInsert m k v) = some v := by
  induction m with
  | nil => simp [mapInsert, List.lookup]
  | cons p rest ih =>
    obtain ⟨k', v'⟩ := p
    by_cases hk : k' = k
    · simp [mapInsert, if_pos hk, List.lookup]
    · have hne : (k == k') = false := by
        simp only [beq_eq_false_iff_ne, ne_eq]
        intro hh
        exact hk hh.symm
      simp [mapInsert, if_neg hk, List.lookup, hne, ih]

/-! ### Claim theorems -/

/-- C1: a file (non-directory) path that the merge planner walks without
error is classified exactly as the spec's three-way comparison dictates:
absent from the target → Update; present in the target but absent from the
snapshot → Conflict(NotInSnapshot); present in both with target metadata
agreeing with snapshot metadata on size, modification timestamp, permission
bits and file-type classification → Update; otherwise →
Conflict(ModifiedInTarget). -/
theorem merge_plan_classification
    (source_dir snap_dir target_dir : Path) (fs : Fs) (p rel : Path) (m : Metadata)
    (hdir : m.file_type.is_dir = false)
    (hrel : stripDirFromFront source_dir p = some rel)
    (htmod : lookupModSome (fs (target_dir ++ rel)) = true)
    (hsmod : lookupModSome (fs (snap_dir ++ rel)) = true) :
    (match fs (target_dir ++ rel), fs (snap_dir ++ rel) with
     | .ioErr _, _ => True
     | .absent, _ =>
       plan_merging_zone_changes source_dir snap_dir target_dir fs
           [.entry p (.ok m)] = ⟨[⟨rel, m, none⟩], [], []⟩
     | .present _, .ioErr _ => True
     | .present tm, .absent =>
       plan_merging_zone_changes source_dir snap_dir target_dir fs
           [.entry p (.ok m)] = ⟨[], [⟨rel, .NotInSnapshot, m, tm⟩], []⟩
     | .present tm, .present sm =>
       plan_merging_zone_changes source_dir snap_dir target_dir fs
           [.entry p (.ok m)] =
         if tm.len = sm.len ∧ tm.modified = sm.modified ∧
             tm.permissions = sm.permissions ∧ tm.file_type = sm.file_type
         then ⟨[⟨rel, m, some tm⟩], [], []⟩
         else ⟨[], [⟨rel, .ModifiedInTarget, m, tm⟩], []⟩) := by
  cases ht : fs (target_dir ++ rel) with
  | ioErr e => trivial
  | absent =>
    simp [plan_merging_zone_changes, planStep, hrel, hdir, ht]
  | present tm =>
    cases hs : fs (snap_dir ++ rel) with
    | ioErr e => trivial
    | absent =>
      simp [plan_merging_zone_changes, planStep, hrel, hdir, ht, hs]
    | present sm =>
      have htm : tm.modified.isSome = true := by
        rw [ht] at htmod; simpa [lookupModSome] using htmod
      have hsm : sm.modified.isSome = true := by
        rw [hs] at hsmod; simpa [lookupModSome] using hsmod
      obtain ⟨tt, htt⟩ := Option.isSome_iff_exists.mp htm
      obtain ⟨st, hst⟩ := Option.isSome_iff_exists.mp hsm
      have hiff := metadata_matches_iff tm sm tt st htt hst
      by_cases hagree : tm.len = sm.len ∧ tm.modified = sm.modified ∧
          tm.permissions = sm.permissions ∧ tm.file_type = sm.file_type
      · have hmm : metadata_matches tm sm = true := hiff.mpr hagree
        simp [plan_merging_zone_changes, planStep, hrel, hdir, ht, hs, hmm, hagree]
      · have hmm : metadata_matches tm sm = false := by
          cases hb : metadata_matches tm sm
          · rfl
          · exact absurd (hiff.mp hb) hagree
        simp [plan_merging_zone_changes, planStep, hrel, hdir, ht, hs, hmm, hagree]

/-- Witness for C1: one concrete run, target present and agreeing with the
snapshot, classified as an Update. -/
theorem merge_plan_classification_witness :
    plan_merging_zone_changes ["changes"] ["snap"] ["target"]
        (fun q =>
          if q = ["target", "a.txt"] then
            .present ⟨10, some 0, 420, ⟨false, true, false⟩⟩
          else if q = ["snap", "a.txt"] then
            .present ⟨10, some 0, 420, ⟨false, true, false⟩⟩
          else .absent)
        [.entry ["changes", "a.txt"] (.ok ⟨12, some 1, 420, ⟨false, true, false⟩⟩)] =
      ⟨[⟨["a.txt"], ⟨12, some 1, 420, ⟨false, true, false⟩⟩,
          some ⟨10, some 0, 420, ⟨false, true, false⟩⟩⟩], [], []⟩ :=
  merge_plan_classification ["changes"] ["snap"] ["target"]
    (fun q =>
      if q = ["target", "a.txt"] then
        .present ⟨10, some 0, 420, ⟨false, true, false⟩⟩
      else if q = ["snap", "a.txt"] then
        .present ⟨10, some 0, 420, ⟨false, true, false⟩⟩
      else .absent)
    ["changes", "a.txt"] ["a.txt"] ⟨12, some 1, 420, ⟨false, true, false⟩⟩
    (by decide) (by decide) (by decide) (by decide)

/-- C5: a walk entry that fails (walk error or unreadable metadata) is
recorded as a Skip carrying the underlying error, appears in neither the
updates nor the conflicts of the resulting `Plan`, and the walk continues:
the entries before and after it are planned exactly as they would be on
their own, and a `Plan` is returned (the planner is a total function). -/
theorem merge_plan_skip_isolation
    (source_dir snap_dir target_dir : Path) (fs : Fs)
    (pre post : List WalkResult) (w : WalkResult)
    (hw : isSkipSource w = true) :
    (plan_merging_zone_changes source_dir snap_dir target_dir fs
        (pre ++ w :: post)).skips =
      (plan_merging_zone_changes source_dir snap_dir target_dir fs pre).skips
        ++ skipOf w
        :: (plan_merging_zone_changes source_dir snap_dir target_dir fs post).skips ∧
    (plan_merging_zone_changes source_dir snap_dir target_dir fs
        (pre ++ w :: post)).updates =
      (plan_merging_zone_changes source_dir snap_dir target_dir fs pre).updates
        ++ (plan_merging_zone_changes source_dir snap_dir target_dir fs post).updates ∧
    (plan_merging_zone_changes source_dir snap_dir target_dir fs
        (pre ++ w :: post)).conflicts =
      (plan_merging_zone_changes source_dir snap_dir target_dir fs pre).conflicts
        ++ (plan_merging_zone_changes source_dir snap_dir target_dir fs post).conflicts := by
  have h1 := plan_merging_append source_dir snap_dir target_dir fs pre (w :: post)
  have hstep := planStep_of_skip_source source_dir snap_dir target_dir fs w hw
  rw [h1]
  simp [plan_merging_zone_changes, hstep]

/-- Witness for C5: a permissions-style walk failure between two plain
entries lands in the skips with its error, leaving updates and conflicts
those of the surrounding entries. -/
theorem merge_plan_skip_isolation_witness :
    (plan_merging_zone_changes ["c"] ["s"] ["t"] (fun _ => .absent)
        ([.entry ["c", "a"] (.ok ⟨1, some 0, 420, ⟨false, true, false⟩⟩)]
          ++ .failure (some ["c", "b"]) "permission denied"
          :: [.entry ["c", "d"] (.ok ⟨2, some 0, 420, ⟨false, true, false⟩⟩)])).skips =
      [] ++ ⟨some ["c", "b"], "permission denied"⟩
        :: (plan_merging_zone_changes ["c"] ["s"] ["t"] (fun _ => .absent)
            [.entry ["c", "d"] (.ok ⟨2, some 0, 420, ⟨false, true, false⟩⟩)]).skips ∧
    (plan_merging_zone_changes ["c"] ["s"] ["t"] (fun _ => .absent)
        ([.entry ["c", "a"] (.ok ⟨1, some 0, 420, ⟨false, true, false⟩⟩)]
          ++ .failure (some ["c", "b"]) "permission denied"
          :: [.entry ["c", "d"] (.ok ⟨2, some 0, 420, ⟨false, true, false⟩⟩)])).updates =
      (plan_merging_zone_changes ["c"] ["s"] ["t"] (fun _ => .absent)
          [.entry ["c", "a"] (.ok ⟨1, some 0, 420, ⟨false, true, false⟩⟩)]).updates
        ++ (plan_merging_zone_changes ["c"] ["s"] ["t"] (fun _ => .absent)
            [.entry ["c", "d"] (.ok ⟨2, some 0, 420, ⟨false, true, false⟩⟩)]).updates ∧
    (plan_merging_zone_changes ["c"] ["s"] ["t"] (fun _ => .absent)
        ([.entry ["c", "a"] (.ok ⟨1, some 0, 420, ⟨false, true, false⟩⟩)]
          ++ .failure (some ["c", "b"]) "permission denied"
          :: [.entry ["c", "d"] (.ok ⟨2, some 0, 420, ⟨false, true, false⟩⟩)])).conflicts =
      (plan_merging_zone_changes ["c"] ["s"] ["t"] (fun _ => .absent)
          [.entry ["c", "a"] (.ok ⟨1, some 0, 420, ⟨false, true, false⟩⟩)]).conflicts
        ++ (plan_merging_zone_changes ["c"] ["s"] ["t"] (fun _ => .absent)
            [.entry ["c", "d"] (.ok ⟨2, some 0, 420, ⟨false, true, false⟩⟩)]).conflicts :=
  merge_plan_skip_isolation ["c"] ["s"] ["t"] (fun _ => .absent)
    [.entry ["c", "a"] (.ok ⟨1, some 0, 420, ⟨false, true, false⟩⟩)]
    [.entry ["c", "d"] (.ok ⟨2, some 0, 420, ⟨false, true, false⟩⟩)]
    (.failure (some ["c", "b"]) "permission denied") (by decide)

/-- C9 counterexample: a plan containing only Updates (the spec's own
scenario: snapshot `a.txt` size 10, change layer `a.txt` size 12, target
unmodified since the snapshot), applied and re-planned against the same
snapshot baseline, yields a Conflict — not zero Updates and zero
Conflicts as claimed. -/
theorem merge_round_trip_counterexample :
    (plan_merging_zone_changes ["changes"] ["snap"] ["target"]
        (fun q =>
          if q = ["target", "a.txt"] then
            .present ⟨10, some 0, 420, ⟨false, true, false⟩⟩
          else if q = ["snap", "a.txt"] then
            .present ⟨10, some 0, 420, ⟨false, true, false⟩⟩
          else .absent)
        [.entry ["changes", "a.txt"]
          (.ok ⟨12, some 1, 420, ⟨false, true, false⟩⟩)]).conflicts = [] ∧
    (plan_merging_zone_changes ["changes"] ["snap"] ["target"]
        (fun q =>
          if q = ["target", "a.txt"] then
            .present ⟨10, some 0, 420, ⟨false, true, false⟩⟩
          else if q = ["snap", "a.txt"] then
            .present ⟨10, some 0, 420, ⟨false, true, false⟩⟩
          else .absent)
        [.entry ["changes", "a.txt"]
          (.ok ⟨12, some 1, 420, ⟨false, true, false⟩⟩)]).updates ≠ [] ∧
    (plan_merging_zone_changes ["changes"] ["snap"] ["target"]
        (apply_updates ["target"]
          (fun q =>
            if q = ["target", "a.txt"] then
              .present ⟨10, some 0, 420, ⟨false, true, false⟩⟩
            else if q = ["snap", "a.txt"] then
              .present ⟨10, some 0, 420, ⟨false, true, false⟩⟩
            else .absent)
          (plan_merging_zone_changes ["changes"] ["snap"] ["target"]
            (fun q =>
              if q = ["target", "a.txt"] then
                .present ⟨10, some 0, 420, ⟨false, true, false⟩⟩
              else if q = ["snap", "a.txt"] then
                .present ⟨10, some 0, 420, ⟨false, true, false⟩⟩
              else .absent)
            [.entry ["changes", "a.txt"]
              (.ok ⟨12, some 1, 420, ⟨false, true, false⟩⟩)]).updates)
        [.entry ["changes", "a.txt"]
          (.ok ⟨12, some 1, 420, ⟨false, true, false⟩⟩)]).conflicts =
      [⟨["a.txt"], .ModifiedInTarget, ⟨12, some 1, 420, ⟨false, true, false⟩⟩,
        ⟨12, some 1, 420, ⟨false, true, false⟩⟩⟩] := by
  refine ⟨by decide, by decide, by decide⟩

/-- C9 amended: applying the single Update of a conflict- and skip-free
single-file plan makes the target's metadata equal the change layer's;
re-running the planner against the same snapshot baseline therefore never
yields the absent-from-target Update, but classifies the path as an Update
again exactly when the change layer's metadata matches the snapshot's, and
as a Conflict otherwise (NotInSnapshot when the snapshot lacks the path,
ModifiedInTarget when it has it). -/
theorem merge_round_trip_after_apply
    (source_dir snap_dir target_dir : Path) (fs : Fs) (p rel : Path) (m : Metadata)
    (hdir : m.file_type.is_dir = false)
    (hrel : stripDirFromFront source_dir p = some rel)
    (hdistinct : target_dir ++ rel ≠ snap_dir ++ rel)
    (hconf : (plan_merging_zone_changes source_dir snap_dir target_dir fs
        [.entry p (.ok m)]).conflicts = [])
    (hskip : (plan_merging_zone_changes source_dir snap_dir target_dir fs
        [.entry p (.ok m)]).skips = []) :
    plan_merging_zone_changes source_dir snap_dir target_dir
        (apply_updates target_dir fs
          (plan_merging_zone_changes source_dir snap_dir target_dir fs
            [.entry p (.ok m)]).updates)
        [.entry p (.ok m)] =
      match fs (snap_dir ++ rel) with
      | .ioErr e => ⟨[], [], [⟨some p, e⟩]⟩
      | .absent => ⟨[], [⟨rel, .NotInSnapshot, m, m⟩], []⟩
      | .present sm =>
        if metadata_matches m sm then ⟨[⟨rel, m, some m⟩], [], []⟩
        else ⟨[], [⟨rel, .ModifiedInTarget, m, m⟩], []⟩ := by
  obtain ⟨tmv, hupd⟩ : ∃ tmv,
      (plan_merging_zone_changes source_dir snap_dir target_dir fs
        [.entry p (.ok m)]).updates = [⟨rel, m, tmv⟩] := by
    cases ht : fs (target_dir ++ rel) with
    | ioErr e =>
      exfalso
      rw [show (plan_merging_zone_changes source_dir snap_dir target_dir fs
          [.entry p (.ok m)]).skips = [⟨some p, e⟩] from by
        simp [plan_merging_zone_changes, planStep, hrel, hdir, ht]] at hskip
      exact absurd hskip (by simp)
    | absent =>
      exact ⟨none, by simp [plan_merging_zone_changes, planStep, hrel, hdir, ht]⟩
    | present tm =>
      cases hs : fs (snap_dir ++ rel) with
      | ioErr e =>
        exfalso
        rw [show (plan_merging_zone_changes source_dir snap_dir target_dir fs
            [.entry p (.ok m)]).skips = [⟨some p, e⟩] from by
          simp [plan_merging_zone_changes, planStep, hrel, hdir, ht, hs]] at hskip
        exact absurd hskip (by simp)
      | absent =>
        exfalso
        rw [show (plan_merging_zone_changes source_dir snap_dir target_dir fs
            [.entry p (.ok m)]).conflicts =
            [⟨rel, .NotInSnapshot, m, tm⟩] from by
          simp [plan_merging_zone_changes, planStep, hrel, hdir, ht, hs]] at hconf
        exact absurd hconf (by simp)
      | present sm =>
        cases hmm : metadata_matches tm sm with
        | true =>
          exact ⟨some tm, by
            simp [plan_merging_zone_changes, planStep, hrel, hdir, ht, hs, hmm]⟩
        | false =>
          exfalso
          rw [show (plan_merging_zone_changes source_dir snap_dir target_dir fs
              [.entry p (.ok m)]).conflicts =
              [⟨rel, .ModifiedInTarget, m, tm⟩] from by
            simp [plan_merging_zone_changes, planStep, hrel, hdir, ht, hs, hmm]] at hconf
          exact absurd hconf (by simp)
  rw [hupd]
  have hfs2t : (apply_updates target_dir fs [(⟨rel, m, tmv⟩ : Update)])
      (target_dir ++ rel) = .present m := by
    simp [apply_updates, apply_update, fsSet]
  have hfs2s : (apply_updates target_dir fs [(⟨rel, m, tmv⟩ : Update)])
      (snap_dir ++ rel) = fs (snap_dir ++ rel) := by
    simp only [apply_updates, apply_update, fsSet]
    rw [if_neg]
    intro h
    exact hdistinct h.symm
  cases hs : fs (snap_dir ++ rel) with
  | ioErr e =>
    rw [hs] at hfs2s
    simp [plan_merging_zone_changes, planStep, hrel, hdir, hfs2t, hfs2s]
  | absent =>
    rw [hs] at hfs2s
    simp [plan_merging_zone_changes, planStep, hrel, hdir, hfs2t, hfs2s]
  | present sm =>
    rw [hs] at hfs2s
    cases hmm : metadata_matches m sm with
    | true =>
      simp [plan_merging_zone_changes, planStep, hrel, hdir, hfs2t, hfs2s, hmm]
    | false =>
      simp [plan_merging_zone_changes, planStep, hrel, hdir, hfs2t, hfs2s, hmm]

/-- Witness for C9's amended theorem: a file added by the zone (absent from
snapshot and target) is an Update; after applying it, re-planning turns it
into a Conflict(NotInSnapshot). -/
theorem merge_round_trip_after_apply_witness :
    plan_merging_zone_changes ["c"] ["s"] ["t"]
        (apply_updates ["t"] (fun _ => .absent)
          (plan_merging_zone_changes ["c"] ["s"] ["t"] (fun _ => .absent)
            [.entry ["c", "b.txt"]
              (.ok ⟨7, some 3, 420, ⟨false, true, false⟩⟩)]).updates)
        [.entry ["c", "b.txt"] (.ok ⟨7, some 3, 420, ⟨false, true, false⟩⟩)] =
      ⟨[], [⟨["b.txt"], .NotInSnapshot, ⟨7, some 3, 420, ⟨false, true, false⟩⟩,
        ⟨7, some 3, 420, ⟨false, true, false⟩⟩⟩], []⟩ :=
  merge_round_trip_after_apply ["c"] ["s"] ["t"] (fun _ => .absent)
    ["c", "b.txt"] ["b.txt"] ⟨7, some 3, 420, ⟨false, true, false⟩⟩
    (by decide) (by decide) (by decide) (by decide) (by decide)

theorem applyEffects_no_copy (fs : Fs) (es : List Effect)
    (h : ∀ e ∈ es, isCopyEffect e = false) : applyEffects fs es = fs := by
  induction es with
  | nil => rfl
  | cons e es ih =>
    cases e with
    | printLine s =>
      simpa [applyEffects] using ih (fun e he => h e (List.mem_cons_of_mem _ he))
    | copyFile s t =>
      have := h _ (List.mem_cons_self _ _)
      simp [isCopyEffect] at this

/-- C10: `interactive_merge` returns `Ok` whenever planning succeeds (and
planning always succeeds), performs no file copies — so interpreting its
effect trace leaves any filesystem, target tree and change layer included,
unchanged — its only effects are printing the plan's skipped paths, and
its behaviour does not depend on the mode, `Mode::AutoApplyUpdates` as
passed by `run` in `src/lib.rs` included. -/
theorem interactive_merge_applies_nothing
    (source_dir snap_dir target_dir : Path) (fs : Fs)
    (walk : List WalkResult) (mode : Mode) :
    (interactive_merge source_dir snap_dir target_dir fs walk mode).1 =
      .ok () ∧
    (interactive_merge source_dir snap_dir target_dir fs walk mode).2.filter
      isCopyEffect = [] ∧
    applyEffects fs
      (interactive_merge source_dir snap_dir target_dir fs walk mode).2 = fs ∧
    interactive_merge source_dir snap_dir target_dir fs walk run_merge_mode =
      interactive_merge source_dir snap_dir target_dir fs walk mode := by
  have hnc : ∀ e ∈ (interactive_merge source_dir snap_dir target_dir fs
      walk mode).2, isCopyEffect e = false := by
    intro e he
    simp only [interactive_merge] at he
    by_cases hlen : (plan_merging_zone_changes source_dir snap_dir target_dir
        fs walk).skips.length > 0
    · rw [if_pos hlen] at he
      rcases List.mem_cons.mp he with h | h
      · rw [h]; rfl
      · obtain ⟨s, _, hes⟩ := List.mem_map.mp h
        rw [← hes]; rfl
    · rw [if_neg hlen] at he
      exact absurd he (List.not_mem_nil e)
  exact ⟨rfl, List.filter_eq_nil_iff.mpr (by
      intro e he
      rw [hnc e he]
      exact Bool.false_ne_true),
    applyEffects_no_copy fs _ hnc, rfl⟩

/-- C6: when the referenced snapshot's directory does not exist,
`Zone::create_impl` fails with its snapshot-missing error before touching
the disk: the on-disk state is exactly the initial one and no filesystem
operation was performed (empty trace), so neither the zone directory, nor
its changes/work/mount subdirectories, nor an info record were created. -/
theorem zone_create_missing_snapshot_no_residue
    (mzr_dir : Path) (zone_name snap_name : String) (writeOk : Bool)
    (s : DirState) (h : snapDirOf mzr_dir snap_name ∉ s.dirs) :
    (create_impl mzr_dir zone_name snap_name writeOk s).1 =
      (.error ("Expected that the " ++ snap_name ++ " snapshot would exist"), s) ∧
    (create_impl mzr_dir zone_name snap_name writeOk s).2 = [] := by
  simp [create_impl, h]

/-- Witness for C6: creating a zone against a missing snapshot on an empty
disk fails and leaves the disk empty. -/
theorem zone_create_missing_snapshot_no_residue_witness :
    (create_impl ["m"] "z" "s" true ⟨[], []⟩).1 =
      (.error ("Expected that the " ++ "s" ++ " snapshot would exist"),
        (⟨[], []⟩ : DirState)) ∧
    (create_impl ["m"] "z" "s" true ⟨[], []⟩).2 = [] :=
  zone_create_missing_snapshot_no_residue ["m"] "z" "s" true ⟨[], []⟩ (by decide)

/-- C7 counterexample: with the snapshot present and a fresh zone, a run of
`Zone::create_impl` whose final info-record write fails ends in an error
state whose changes directory exists while the zone's info record does
not — the directories and the info record are not created or discarded as
an atomic group, refuting the exists-iff invariant. -/
theorem zone_create_dirs_info_not_atomic :
    (create_impl ["m"] "z" "s" false
        ⟨[["m"], ["m", "snap"], ["m", "snap", "s"]], []⟩).1.1 =
      .error "failed to write zone info" ∧
    dirsWithoutInfo (zoneDirOf ["m"] "z")
      (create_impl ["m"] "z" "s" false
        ⟨[["m"], ["m", "snap"], ["m", "snap", "s"]], []⟩).1.2 = true := by
  refine ⟨by decide, by decide⟩

/-- C7 amended: the directories are created strictly before the info
record, with no rollback: starting from a state without the zone's info
record, a successful `Zone::create_impl` leaves all of the zone, changes,
work and mount directories and the info record on disk, while a failed one
leaves no info record (though directories may remain). -/
theorem zone_create_info_last
    (mzr_dir : Path) (zone_name snap_name : String) (writeOk : Bool)
    (s : DirState)
    (hfresh : zoneInfoFileOf (zoneDirOf mzr_dir zone_name) ∉ s.infos) :
    (exceptIsOk (create_impl mzr_dir zone_name snap_name writeOk s).1.1 = true →
      zoneDirOf mzr_dir zone_name ∈
          (create_impl mzr_dir zone_name snap_name writeOk s).1.2.dirs ∧
        ovfsChangesDirOf (zoneDirOf mzr_dir zone_name) ∈
          (create_impl mzr_dir zone_name snap_name writeOk s).1.2.dirs ∧
        ovfsWorkDirOf (zoneDirOf mzr_dir zone_name) ∈
          (create_impl mzr_dir zone_name snap_name writeOk s).1.2.dirs ∧
        ovfsMountDirOf (zoneDirOf mzr_dir zone_name) ∈
          (create_impl mzr_dir zone_name snap_name writeOk s).1.2.dirs ∧
        zoneInfoFileOf (zoneDirOf mzr_dir zone_name) ∈
          (create_impl mzr_dir zone_name snap_name writeOk s).1.2.infos) ∧
    (exceptIsOk (create_impl mzr_dir zone_name snap_name writeOk s).1.1 = false →
      zoneInfoFileOf (zoneDirOf mzr_dir zone_name) ∉
        (create_impl mzr_dir zone_name snap_name writeOk s).1.2.infos) := by
  by_cases hsnap : snapDirOf mzr_dir snap_name ∈ s.dirs
  · by_cases hzone : zoneDirOf mzr_dir zone_name ∈
        (createDirAll s (mzr_dir ++ ["zone"])).dirs
    · have hcd : createDir (createDirAll s (mzr_dir ++ ["zone"]))
          (zoneDirOf mzr_dir zone_name) = .error "exists" := by
        simp [createDir, hzone]
      constructor
      · intro hok
        exfalso
        simp [create_impl, hsnap, hcd, exceptIsOk] at hok
      · intro _
        simp only [create_impl, if_pos hsnap, hcd]
        simpa [createDirAll] using hfresh
    · have hcd : createDir (createDirAll s (mzr_dir ++ ["zone"]))
          (zoneDirOf mzr_dir zone_name) =
          .ok ⟨zoneDirOf mzr_dir zone_name ::
            (createDirAll s (mzr_dir ++ ["zone"])).dirs,
            (createDirAll s (mzr_dir ++ ["zone"])).infos⟩ := by
        simp [createDir, hzone]
      cases writeOk with
      | true =>
        constructor
        · intro _
          simp only [create_impl, if_pos hsnap, hcd, jsonWrite, if_true]
          refine ⟨?_, ?_, ?_, ?_, ?_⟩ <;>
            simp [createDirAll, self_mem_ancestors, List.mem_append]
        · intro hbad
          exfalso
          simp [create_impl, hsnap, hcd, jsonWrite, exceptIsOk] at hbad
      | false =>
        constructor
        · intro hok
          exfalso
          simp [create_impl, hsnap, hcd, jsonWrite, exceptIsOk] at hok
        · intro _
          simp only [create_impl, if_pos hsnap, hcd, jsonWrite, if_false]
          simpa [createDirAll] using hfresh
  · constructor
    · intro hok
      exfalso
      simp [create_impl, hsnap, exceptIsOk] at hok
    · intro _
      simp only [create_impl, if_neg hsnap]
      exact hfresh

/-- Witness for C7's amended theorem: a successful creation on a fresh
state leaves all four directories and the info record on disk. -/
theorem zone_create_info_last_witness :
    zoneDirOf ["m"] "z" ∈
        (create_impl ["m"] "z" "s" true
          ⟨[["m"], ["m", "snap"], ["m", "snap", "s"]], []⟩).1.2.dirs ∧
      ovfsChangesDirOf (zoneDirOf ["m"] "z") ∈
        (create_impl ["m"] "z" "s" true
          ⟨[["m"], ["m", "snap"], ["m", "snap", "s"]], []⟩).1.2.dirs ∧
      ovfsWorkDirOf (zoneDirOf ["m"] "z") ∈
        (create_impl ["m"] "z" "s" true
          ⟨[["m"], ["m", "snap"], ["m", "snap", "s"]], []⟩).1.2.dirs ∧
      ovfsMountDirOf (zoneDirOf ["m"] "z") ∈
        (create_impl ["m"] "z" "s" true
          ⟨[["m"], ["m", "snap"], ["m", "snap", "s"]], []⟩).1.2.dirs ∧
      zoneInfoFileOf (zoneDirOf ["m"] "z") ∈
        (create_impl ["m"] "z" "s" true
          ⟨[["m"], ["m", "snap"], ["m", "snap", "s"]], []⟩).1.2.infos :=
  (zone_create_info_last ["m"] "z" "s" true
    ⟨[["m"], ["m", "snap"], ["m", "snap", "s"]], []⟩ (by decide)).1 (by decide)

/-- C2: handling a `ZoneProcess(Z)` request when `Z` is not yet registered
and every step succeeds forks exactly one anchor and inserts exactly one
registry entry for `Z`, after which a lookup finds that pid; when `Z` is
already registered, the daemon replies with the recorded pid, performs no
effect (no fork, no overlay mount), and leaves the registry untouched; in
every case the registry keeps at most one entry per zone name. -/
theorem daemon_zone_process_fork_once
    (w : HandleWorld) (processes : ProcessMap) (name : ZoneName)
    (hnodup : keysNodup processes)
    (hrecv : w.recv = .ok name) :
    keysNodup (handle_client w processes).2.1 ∧
    (match List.lookup name processes with
     | some pid => handle_client w processes = (.zoneProcess pid, processes, [])
     | none =>
       ∀ pid, w.load = .ok (some ()) → w.gitSymlink = .ok () →
         w.mount = .ok () → w.forkChild = .ok pid → w.readyData = readyMsg →
         handle_client w processes =
             (.zoneProcess pid, mapInsert processes name pid,
               [.gitLink, .mountOverlay, .forkAnchor pid]) ∧
           List.lookup name (mapInsert processes name pid) = some pid) := by
  constructor
  · cases hrecv2 : w.recv with
    | error e => simpa [handle_client, hrecv2] using hnodup
    | ok name2 =>
      cases hl : List.lookup name2 processes with
      | some pid => simpa [handle_client, hrecv2, hl] using hnodup
      | none =>
        cases hload : w.load with
        | error e => simpa [handle_client, hrecv2, hl, hload] using hnodup
        | ok oz =>
          cases oz with
          | none => simpa [handle_client, hrecv2, hl, hload] using hnodup
          | some u =>
            cases hgit : w.gitSymlink with
            | error e =>
              simpa [handle_client, hrecv2, hl, hload, hgit] using hnodup
            | ok u2 =>
              cases hmount : w.mount with
              | error e =>
                simpa [handle_client, hrecv2, hl, hload, hgit, hmount] using hnodup
              | ok u3 =>
                cases hres : (fork_zone_process w).1 with
                | error e =>
                  simpa [handle_client, hrecv2, hl, hload, hgit, hmount, hres]
                    using hnodup
                | ok pid =>
                  simpa [handle_client, hrecv2, hl, hload, hgit, hmount, hres]
                    using keysNodup_mapInsert processes name2 pid hnodup
  · cases hl : List.lookup name processes with
    | some pid => simp [handle_client, hrecv, hl]
    | none =>
      intro pid hload hgit hmount hfork hready
      refine ⟨?_, lookup_mapInsert processes name pid⟩
      simp [handle_client, hrecv, hl, hload, hgit, hmount,
        fork_zone_process, hfork, hready]

/-- Witness for C2: on an empty registry, with the zone present and every
step succeeding, the daemon forks once, mounts once, inserts the entry, and
a lookup then finds the recorded pid. -/
theorem daemon_zone_process_fork_once_witness :
    keysNodup (handle_client
        ⟨.ok "z", .ok (some ()), .ok (), .ok (), .ok 42, readyMsg⟩ []).2.1 ∧
    handle_client ⟨.ok "z", .ok (some ()), .ok (), .ok (), .ok 42, readyMsg⟩ [] =
        (.zoneProcess 42, mapInsert [] "z" 42,
          [.gitLink, .mountOverlay, .forkAnchor 42]) ∧
      List.lookup "z" (mapInsert [] "z" 42) = some 42 :=
  have h := daemon_zone_process_fork_once
    ⟨.ok "z", .ok (some ()), .ok (), .ok (), .ok 42, readyMsg⟩ [] "z"
    (by simp [keysNodup]) rfl
  ⟨h.1, h.2 42 rfl rfl rfl rfl rfl⟩

/-- C4: whenever `handle_client` answers with an `Error` response — the
zone metadata missing, a failed receive/load/symlink/mount/clone, or a
missing or unexpected anchor readiness message — the registry it returns is
exactly the one it was given: no entry was inserted. -/
theorem daemon_error_leaves_registry
    (w : HandleWorld) (processes : ProcessMap)
    (herr : isErrResp (handle_client w processes).1 = true) :
    (handle_client w processes).2.1 = processes := by
  cases hrecv : w.recv with
  | error e => simp [handle_client, hrecv]
  | ok name =>
    cases hl : List.lookup name processes with
    | some pid =>
      exfalso
      simp [handle_client, hrecv, hl, isErrResp] at herr
    | none =>
      cases hload : w.load with
      | error e => simp [handle_client, hrecv, hl, hload]
      | ok oz =>
        cases oz with
        | none => simp [handle_client, hrecv, hl, hload]
        | some u =>
          cases hgit : w.gitSymlink with
          | error e => simp [handle_client, hrecv, hl, hload, hgit]
          | ok u2 =>
            cases hmount : w.mount with
            | error e => simp [handle_client, hrecv, hl, hload, hgit, hmount]
            | ok u3 =>
              cases hres : (fork_zone_process w).1 with
              | error e =>
                simp [handle_client, hrecv, hl, hload, hgit, hmount, hres]
              | ok pid =>
                exfalso
                simp [handle_client, hrecv, hl, hload, hgit, hmount, hres,
                  isErrResp] at herr

/-- Witness for C4: a wrong readiness message from the forked anchor yields
an error response and leaves the registry empty. -/
theorem daemon_error_leaves_registry_witness :
    (handle_client
        ⟨.ok "z", .ok (some ()), .ok (), .ok (), .ok 42, ['n', 'o']⟩ []).2.1 = [] :=
  daemon_error_leaves_registry
    ⟨.ok "z", .ok (some ()), .ok (), .ok (), .ok 42, ['n', 'o']⟩ [] (by decide)

/-- C3: in every admissible execution of `with_unshared_user_and_mount` —
every interleaving of the parent's and the child's event sequences in which
the child's one-shot `recv_ready` completes only after the parent's
`send_ready` — the child body runs strictly after all three identity-mapping
control-file writes (`uid_map`, `setgroups` deny, `gid_map`), because the
parent sends ready only after `map_user_to_root` finished the writes. -/
theorem handshake_orders_child_body (t : List Ev)
    (hmem : t ∈ executions) (hadm : admissible t) :
    t.indexOf Ev.writeUidMap < t.indexOf Ev.childBody ∧
    t.indexOf Ev.writeSetgroupsDeny < t.indexOf Ev.childBody ∧
    t.indexOf Ev.writeGidMap < t.indexOf Ev.childBody := by
  have H : ∀ u ∈ executions, admissible u →
      u.indexOf Ev.writeUidMap < u.indexOf Ev.childBody ∧
      u.indexOf Ev.writeSetgroupsDeny < u.indexOf Ev.childBody ∧
      u.indexOf Ev.writeGidMap < u.indexOf Ev.childBody := by decide
  exact H t hmem hadm

/-- Witness for C3: the sequential execution is admissible and orders the
child body after the three writes. -/
theorem handshake_orders_child_body_witness :
    [Ev.cloneChild, Ev.writeUidMap, Ev.writeSetgroupsDeny, Ev.writeGidMap,
        Ev.sendReady, Ev.recvReady, Ev.childBody].indexOf Ev.writeUidMap <
      [Ev.cloneChild, Ev.writeUidMap, Ev.writeSetgroupsDeny, Ev.writeGidMap,
        Ev.sendReady, Ev.recvReady, Ev.childBody].indexOf Ev.childBody ∧
    [Ev.cloneChild, Ev.writeUidMap, Ev.writeSetgroupsDeny, Ev.writeGidMap,
        Ev.sendReady, Ev.recvReady, Ev.childBody].indexOf Ev.writeSetgroupsDeny <
      [Ev.cloneChild, Ev.writeUidMap, Ev.writeSetgroupsDeny, Ev.writeGidMap,
        Ev.sendReady, Ev.recvReady, Ev.childBody].indexOf Ev.childBody ∧
    [Ev.cloneChild, Ev.writeUidMap, Ev.writeSetgroupsDeny, Ev.writeGidMap,
        Ev.sendReady, Ev.recvReady, Ev.childBody].indexOf Ev.writeGidMap <
      [Ev.cloneChild, Ev.writeUidMap, Ev.writeSetgroupsDeny, Ev.writeGidMap,
        Ev.sendReady, Ev.recvReady, Ev.childBody].indexOf Ev.childBody :=
  handshake_orders_child_body
    [Ev.cloneChild, Ev.writeUidMap, Ev.writeSetgroupsDeny, Ev.writeGidMap,
      Ev.sendReady, Ev.recvReady, Ev.childBody] (by decide) (by decide)

theorem nl_not_mem_jsonEscape (s : List Char) : nlChar ∉ jsonEscape s := by
  induction s with
  | nil => simp [jsonEscape]
  | cons c cs ih =>
    by_cases h1 : c = quoteChar
    · simp only [jsonEscape, if_pos h1, List.mem_cons]
      rintro (h | h | h)
      · exact absurd h (by decide)
      · exact absurd h (by decide)
      · exact ih h
    · by_cases h2 : c = backslashChar
      · simp only [jsonEscape, if_neg h1, if_pos h2, List.mem_cons]
        rintro (h | h | h)
        · exact absurd h (by decide)
        · exact absurd h (by decide)
        · exact ih h
      · by_cases h3 : c = nlChar
        · simp only [jsonEscape, if_neg h1, if_neg h2, if_pos h3, List.mem_cons]
          rintro (h | h | h)
          · exact absurd h (by decide)
          · exact absurd h (by decide)
          · exact ih h
        · simp only [jsonEscape, if_neg h1, if_neg h2, if_neg h3, List.mem_cons]
          rintro (h | h)
          · exact h3 h.symm
          · exact ih h

theorem nl_not_mem_serializeRequest (zone_name : List Char) :
    nlChar ∉ serializeRequest zone_name := by
  intro hmem
  simp only [serializeRequest] at hmem
  rcases List.mem_append.mp hmem with k | k
  · rcases List.mem_append.mp k with k | k
    · rcases List.mem_append.mp k with k | k
      · rcases List.mem_append.mp k with k | k
        · exact absurd k (by decide)
        · exact absurd k (by decide)
      · exact absurd k (by decide)
    · exact nl_not_mem_jsonEscape zone_name k
  · exact absurd k (by decide)

theorem readUntilNl_frame (xs rest : List Char) (h : nlChar ∉ xs) :
    readUntilNl (xs ++ nlChar :: rest) = xs ++ [nlChar] := by
  induction xs with
  | nil => simp [readUntilNl]
  | cons c cs ih =>
    have hc : ¬(c = nlChar) := fun hh => h (hh ▸ List.mem_cons_self c cs)
    simp only [List.cons_append, readUntilNl, if_neg hc, List.append_eq]
    rw [ih (fun hm => h (List.mem_cons_of_mem _ hm))]

theorem serializeResponse_getLast (r : Response) :
    (serializeResponse r).getLast? = some rbraceChar := by
  cases r with
  | zoneProcess pid =>
    simp only [serializeResponse]
    rw [List.getLast?_append_cons]
    rfl
  | error msg =>
    simp only [serializeResponse]
    rw [List.getLast?_append_cons]
    rfl

/-- C8 counterexample: the daemon's `send_response` writes the serialized
response and nothing else, so the bytes it sends end with the closing brace
of the JSON record, not with a newline terminator — the response direction
of the protocol is not newline-framed. -/
theorem response_not_newline_terminated :
    (send_response [] (Response.error "boom")).getLast? = some rbraceChar ∧
    rbraceChar ≠ nlChar :=
  ⟨by
    show (serializeResponse (Response.error "boom")).getLast? = some rbraceChar
    exact serializeResponse_getLast (Response.error "boom"),
   by decide⟩

/-- C8 amended: every request sent by the client is written in full and
followed by a single newline, which the daemon's `read_until` consumes as
the frame boundary; the daemon's response is written in full but with no
newline terminator (its last byte is the closing brace), and the client
parses it directly from the stream rather than via newline framing. -/
theorem protocol_framing (zone_name rest stream : List Char) (resp : Response) :
    send_request stream zone_name =
      stream ++ (serializeRequest zone_name ++ [nlChar]) ∧
    readUntilNl (serializeRequest zone_name ++ nlChar :: rest) =
      serializeRequest zone_name ++ [nlChar] ∧
    send_response stream resp = stream ++ serializeResponse resp ∧
    (serializeResponse resp).getLast? = some rbraceChar ∧
    rbraceChar ≠ nlChar := by
  refine ⟨by simp [send_request], ?_, rfl, serializeResponse_getLast resp, by decide⟩
  exact readUntilNl_frame (serializeRequest zone_name) rest
    (nl_not_mem_serializeRequest zone_name)

end Mzr
